import Mathlib

/-!
Verification development for the screen-time-tracker repository.

The repository's `src/main.ts` implements the frontend `ScreenTimeTracker`
class.  Its pure logic (time formatting, lap rendering, button/timer display
decisions, state updates around the Tauri `invoke` calls) is embedded below as
executable Lean definitions.  The backend lap/session state machine
(LapTracker / SessionManager) is not part of the sources; it is modelled from
the specification where a claim requires it.
-/

namespace ScreenTime

/-! ## Frontend data model (`main.ts`, interfaces `CurrentStatus`, `Lap`, `DayRecord`) -/

/-- Mirrors the TS interface `CurrentStatus`.  Durations are whole seconds. -/
structure CurrentStatus where
  day_key : String
  current_lap_duration : Nat
  total_session_duration : Nat
  is_active : Bool
deriving Repr, DecidableEq

/-- Mirrors the TS interface `Lap` as received by the frontend: `end_time` and
`duration` are optional fields. -/
structure FLap where
  start_time : Int
  end_time : Option Int
  duration : Option Int
deriving Repr, DecidableEq

/-- Mirrors the TS interface `DayRecord`. -/
structure DayRecord where
  date : String
  total_duration : Nat
  laps : List FLap
  is_active : Bool
deriving Repr, DecidableEq

/-- The mutable fields of the `ScreenTimeTracker` class. -/
structure FrontendState where
  currentStatus : Option CurrentStatus
  isTracking : Bool
deriving Repr, DecidableEq

/-! ## `formatTime` (main.ts lines 264-269) -/

/-- JS `s.padStart(2, "0")`: prepend zeros until the string is 2 long. -/
def padStart2 (s : String) : String :=
  if 2 ≤ s.length then s else String.mk (List.replicate (2 - s.length) '0') ++ s

/-- Embeds `formatTime`: hours `floor(s / 3600)`, minutes
`floor((s % 3600) / 60)`, seconds `s % 60`, each zero-padded to two digits and
joined with colons. -/
def formatTime (seconds : Nat) : String :=
  let hours := seconds / 3600
  let minutes := (seconds % 3600) / 60
  let secs := seconds % 60
  padStart2 (toString hours) ++ ":" ++ padStart2 (toString minutes) ++ ":" ++
    padStart2 (toString secs)

/-! ## `displayLaps` (main.ts lines 313-385)

The function writes HTML into the laps-list element.  The HTML is modelled
structurally: each `lap-item` div becomes a `LapEntry`, and the whole
`innerHTML` becomes a `LapsListContent`. -/

/-- The control rendered next to the active lap: the Stop button when
`lapDuration >= 3`, otherwise the wait text with `Math.ceil(3 - lapDuration)`
seconds (the argument is an integer, so the ceiling is the value itself). -/
inductive StopControl
  | stopButton
  | waitText (seconds : Int)
deriving Repr, DecidableEq

/-- One `lap-item` div: a completed lap (with its 1-based number, duration,
start and end times) or the current active lap with its stop control. -/
inductive LapEntry
  | completed (num : Nat) (duration : Int) (start_time : Int)
      (end_time : Option Int)
  | currentLap (start_time : Int) (ctrl : StopControl)
deriving Repr, DecidableEq

/-- The content `displayLaps` assigns to the laps-list element: the
"No laps recorded yet" empty-state message, or the rendered lap items. -/
inductive LapsListContent
  | emptyMessage
  | entries (items : List LapEntry)
deriving Repr, DecidableEq

/-- Embeds `displayLaps(laps, isActive)`.  `now` stands for
`Math.floor(Date.now() / 1000)` read inside the function.  Faithful to the
source: completed laps are `laps.filter(lap => lap.duration !== undefined &&
lap.duration !== null && lap.duration > 0)` rendered in order with
`lap.duration || 0` as the shown duration; the current lap is
`laps.find(lap => lap.duration === undefined || lap.duration === null)` and is
rendered only when `isActive`, with the Stop button gated by
`lapDuration >= 3`. -/
def displayLaps (laps : List FLap) (isActive : Bool) (now : Int) :
    LapsListContent :=
  if laps.length = 0 then .emptyMessage
  else
    let completedLaps := laps.filter fun lap =>
      match lap.duration with
      | some d => decide (0 < d)
      | none => false
    let currentLap := laps.find? fun lap => lap.duration.isNone
    let completedItems := completedLaps.enum.map fun p =>
      LapEntry.completed (p.1 + 1) (p.2.duration.getD 0) p.2.start_time
        p.2.end_time
    let currentItems :=
      match currentLap with
      | some cl =>
          if isActive then
            let lapDuration := now - cl.start_time
            let ctrl :=
              if 3 ≤ lapDuration then StopControl.stopButton
              else StopControl.waitText (3 - lapDuration)
            [LapEntry.currentLap cl.start_time ctrl]
          else []
      | none => []
    .entries (completedItems ++ currentItems)

/-- Projection of a rendered entry to the data of a completed lap:
`(start_time, end_time, shown duration)`. -/
def LapEntry.completedData : LapEntry → Option (Int × Option Int × Int)
  | .completed _ d s e => some (s, e, d)
  | .currentLap _ _ => none

/-- Projection of a rendered entry to the start time of a current-lap row. -/
def LapEntry.currentData : LapEntry → Option Int
  | .currentLap s _ => some s
  | .completed _ _ _ _ => none

/-- Projection of a rendered entry to the stop control of a current-lap row. -/
def LapEntry.controlData : LapEntry → Option StopControl
  | .currentLap _ c => some c
  | .completed _ _ _ _ => none

/-- The completed laps visible in the rendered content, in order. -/
def completedRendered : LapsListContent → List (Int × Option Int × Int)
  | .emptyMessage => []
  | .entries items => items.filterMap LapEntry.completedData

/-- The start times of current-lap rows visible in the rendered content. -/
def currentStarts : LapsListContent → List Int
  | .emptyMessage => []
  | .entries items => items.filterMap LapEntry.currentData

/-- The stop control of the first current-lap row of the rendered content. -/
def currentControl (c : LapsListContent) : Option StopControl :=
  match c with
  | .emptyMessage => none
  | .entries items => (items.filterMap LapEntry.controlData).head?

/-! ## `updateButtonStates` (main.ts lines 271-292) -/

/-- The `disabled` flags the function assigns to the three buttons. -/
structure ButtonStates where
  startDisabled : Bool
  endDisabled : Bool
  addLapDisabled : Bool
deriving Repr, DecidableEq

/-- Embeds `updateButtonStates`: active session (`isTracking`) and paused
session (`currentStatus && !currentStatus.is_active`) both disable Start and
enable End Day / Add Lap; otherwise Start is enabled and the others disabled.
-/
def updateButtonStates (currentStatus : Option CurrentStatus)
    (isTracking : Bool) : ButtonStates :=
  if isTracking then
    ⟨true, false, false⟩
  else if currentStatus.elim false (fun st => !st.is_active) then
    ⟨true, false, false⟩
  else
    ⟨false, true, true⟩

/-! ## `updateTimerDisplay` (main.ts lines 216-262) -/

/-- The four text contents the function writes. -/
structure TimerDisplay where
  currentTimer : String
  totalTimer : String
  sessionInfo : String
  totalInfo : String
deriving Repr, DecidableEq

/-- Embeds `updateTimerDisplay`: dynamic timers only for an active status;
for a present but paused status the current timer is static and the total
timer shows the completed-laps total; with no status both are static. -/
def updateTimerDisplay (currentStatus : Option CurrentStatus) : TimerDisplay :=
  match currentStatus with
  | some st =>
      if st.is_active then
        ⟨formatTime st.current_lap_duration,
          formatTime st.total_session_duration,
          "Active session for " ++ st.day_key,
          "Total from all laps"⟩
      else
        ⟨"00:00:00", formatTime st.total_session_duration,
          "Paused session for " ++ st.day_key,
          "Completed laps only"⟩
  | none => ⟨"00:00:00", "00:00:00", "No active session", "0 laps completed"⟩

/-! ## Command wrappers (main.ts lines 108-214)

Each `async` method is embedded as a pure step function: the result of its
`invoke` call is an explicit argument (`Except` for the promise outcome), and
the DOM / follow-up effects it performs are recorded as an `Action` trace in
program order. -/

/-- Notification kind passed to `showNotification`. -/
inductive NotifKind
  | success
  | error
deriving Repr, DecidableEq

/-- Observable effects of the tracker methods. -/
inductive Action
  | notify (msg : String) (kind : NotifKind)
  | updateButtons
  | updateTimers
  | loadStatus
  | loadLaps
  | hideLaps
  | showLaps
deriving Repr, DecidableEq

/-- Embeds `startDay`: on success set `isTracking = true`, update buttons,
notify, then load the current status; on error only an error notification. -/
def startDay (res : Except String String) (s : FrontendState) :
    FrontendState × List Action :=
  match res with
  | .ok _ =>
      ({ s with isTracking := true },
        [.updateButtons, .notify "Day started successfully!" .success,
          .loadStatus])
  | .error e =>
      (s, [.notify ("Failed to start day: " ++ e) .error])

/-- Embeds `endDay`: on success set `isTracking = false`, update buttons,
notify with the formatted total, hide the laps section; on error only an
error notification. -/
def endDay (res : Except String DayRecord) (s : FrontendState) :
    FrontendState × List Action :=
  match res with
  | .ok dayRecord =>
      ({ s with isTracking := false },
        [.updateButtons,
          .notify ("Day ended! Total time: " ++
            formatTime dayRecord.total_duration) .success,
          .hideLaps])
  | .error e =>
      (s, [.notify ("Failed to end day: " ++ e) .error])

/-- Embeds `addLap`: on success notify and reload status; on error only an
error notification.  No direct field mutation on either path. -/
def addLap (res : Except String Unit) (s : FrontendState) :
    FrontendState × List Action :=
  match res with
  | .ok _ => (s, [.notify "New lap started!" .success, .loadStatus])
  | .error e => (s, [.notify ("Failed to add lap: " ++ e) .error])

/-- Embeds `stopLap`: on success notify with the returned message, reload
status, update buttons; on error only an error notification. -/
def stopLap (res : Except String String) (s : FrontendState) :
    FrontendState × List Action :=
  match res with
  | .ok result =>
      (s, [.notify result .success, .loadStatus, .updateButtons])
  | .error e =>
      (s, [.notify ("Failed to stop lap: " ++ e) .error])

/-- Embeds `loadCurrentStatus`: on a successful invoke, store the status, set
`isTracking = currentStatus?.is_active ?? false`, update buttons and timers,
then load the laps when a status exists and hide the laps section otherwise.
A rejected invoke only logs to the console and mutates nothing. -/
def loadCurrentStatus (res : Except String (Option CurrentStatus))
    (s : FrontendState) : FrontendState × List Action :=
  match res with
  | .ok st =>
      ({ currentStatus := st,
          isTracking := (st.map CurrentStatus.is_active).getD false },
        [.updateButtons, .updateTimers] ++
          match st with
          | some _ => [.loadLaps]
          | none => [.hideLaps])
  | .error _ => (s, [])

/-! ## Backend lap/session state machine

The LapTracker / SessionManager core lives in the Tauri backend, which is
not among the sources of this repository snapshot; the frontend only calls it
through `invoke`.  The machine is therefore modelled from the specification
(data model, LapTracker operations, SessionManager transition table). -/

/-- Modelled from the spec: missing backend Lap type, as the tagged variant —
an open lap with only a start time, or a closed lap with `end_time` present
and `duration = max(0, end_time - start_time)`. -/
inductive SLap
  | openLap (start_time : Int)
  | closedLap (start_time : Int) (end_time : Int) (duration : Nat)
deriving Repr, DecidableEq

/-- Whether the lap's `end_time` is absent. -/
def SLap.isOpen : SLap → Bool
  | .openLap _ => true
  | .closedLap _ _ _ => false

/-- Modelled from the spec: minimum kept lap length, 3 seconds. -/
def MINIMUM_LAP_SECONDS : Nat := 3

/-- Modelled from the spec: missing backend `open_lap(now)` — appends a new
open lap with `start_time = now`; fails when a lap is already open. -/
def open_lap (now : Int) (laps : List SLap) : Option (List SLap) :=
  if laps.any SLap.isOpen then none else some (laps ++ [SLap.openLap now])

/-- Modelled from the spec: missing backend `close_lap(now)` — requires an
open lap; sets its `end_time = now` and `duration = max(0, now - start_time)`
and removes the lap entirely when the duration is below
`MINIMUM_LAP_SECONDS`. -/
def close_lap (now : Int) : List SLap → Option (List SLap)
  | [] => none
  | SLap.openLap s :: rest =>
      let d := (now - s).toNat
      some (if d < MINIMUM_LAP_SECONDS then rest
            else SLap.closedLap s now d :: rest)
  | SLap.closedLap s e du :: rest =>
      (close_lap now rest).map (SLap.closedLap s e du :: ·)

/-- Modelled from the spec: missing backend session state — `NotStarted`, or
a live DayRecord whose lap list determines Active (open lap present) versus
Paused (no open lap). -/
inductive SessionState
  | notStarted
  | day (laps : List SLap)
deriving Repr, DecidableEq

/-- The laps of the current day; empty when no day is live. -/
def SessionState.lapsOf : SessionState → List SLap
  | .notStarted => []
  | .day laps => laps

/-- Modelled from the spec: the events of the transition table.  Lock, sleep,
logout and `stop_lap` are the pause signal; unlock, wake and login the resume
signal; `add_lap` rotates the lap when active and resumes when paused. -/
inductive Event
  | startDayEv (now : Int)
  | pauseEv (now : Int)
  | resumeEv (now : Int)
  | addLapEv (now : Int)
  | endDayEv (now : Int)
deriving Repr, DecidableEq

/-- Modelled from the spec: missing backend SessionManager transition
function.  Invalid operations, and duplicate pause/resume signals, leave the
state unchanged. -/
def step (st : SessionState) (e : Event) : SessionState :=
  match st, e with
  | .notStarted, .startDayEv now => .day [SLap.openLap now]
  | .notStarted, _ => .notStarted
  | .day laps, .startDayEv _ => .day laps
  | .day laps, .pauseEv now =>
      if laps.any SLap.isOpen then
        ((close_lap now laps).map SessionState.day).getD (.day laps)
      else .day laps
  | .day laps, .resumeEv now =>
      if laps.any SLap.isOpen then .day laps
      else ((open_lap now laps).map SessionState.day).getD (.day laps)
  | .day laps, .addLapEv now =>
      if laps.any SLap.isOpen then
        match close_lap now laps with
        | some laps2 =>
            ((open_lap now laps2).map SessionState.day).getD (.day laps2)
        | none => .day laps
      else ((open_lap now laps).map SessionState.day).getD (.day laps)
  | .day _, .endDayEv _ => .notStarted

/-- Running the machine from `NotStarted` over a sequence of events. -/
def run (evs : List Event) : SessionState :=
  evs.foldl step SessionState.notStarted

end ScreenTime

namespace ScreenTime

example : formatTime 0 = "00:00:00" := by rfl
example : formatTime 3725 = "01:02:05" := by rfl

/-- Rendered completed items project back to the lap data they were built
from, whatever the starting index of the enumeration. -/
theorem filterMap_completedData_enumFrom (ls : List FLap) (k : Nat) :
    List.filterMap
        (LapEntry.completedData ∘ fun p : Nat × FLap =>
          LapEntry.completed (p.1 + 1) (p.2.duration.getD 0) p.2.start_time
            p.2.end_time)
        (List.enumFrom k ls)
      = ls.map fun l => (l.start_time, l.end_time, l.duration.getD 0) := by
  induction ls generalizing k with
  | nil => rfl
  | cons x xs ih =>
      simp [List.enumFrom, LapEntry.completedData, Function.comp, ih]

/-- A completed item carries no current-lap start time. -/
theorem currentData_completed (n : Nat) (d s : Int) (e : Option Int) :
    LapEntry.currentData (LapEntry.completed n d s e) = none := rfl

/-- A completed item carries no stop control. -/
theorem controlData_completed (n : Nat) (d s : Int) (e : Option Int) :
    LapEntry.controlData (LapEntry.completed n d s e) = none := rfl

/-- C3: for every non-empty lap list passed to `displayLaps`, the laps
rendered as completed are exactly those whose `duration` field is present and
strictly positive, in their original order, and the lap rendered as the
current open lap (when active) is the first lap whose `duration` field is
absent. -/
theorem displayLaps_completed_current (laps : List FLap) (a : Bool) (now : Int)
    (h : laps ≠ []) :
    completedRendered (displayLaps laps a now)
      = (laps.filter fun l =>
            l.duration.isSome && decide (0 < l.duration.getD 0)).map
          (fun l => (l.start_time, l.end_time, l.duration.getD 0))
    ∧ currentStarts (displayLaps laps true now)
      = ((laps.find? fun l => l.duration.isNone).map FLap.start_time).toList := by
  have hlen : ¬ laps.length = 0 := by simpa [List.length_eq_zero] using h
  have hpred : (fun lap : FLap =>
      match lap.duration with
      | some d => decide (0 < d)
      | none => false)
      = fun l : FLap => l.duration.isSome && decide (0 < l.duration.getD 0) := by
    funext l
    cases l.duration <;> simp
  constructor
  · cases hfind : laps.find? fun lap => lap.duration.isNone with
    | none =>
        simp [displayLaps, hlen, hfind, completedRendered, hpred,
          List.filterMap_append, List.enum, filterMap_completedData_enumFrom]
    | some cl =>
        cases a <;>
          simp [displayLaps, hlen, hfind, completedRendered, hpred,
            List.filterMap_append, List.enum, filterMap_completedData_enumFrom,
            LapEntry.completedData]
  · cases hfind : laps.find? fun lap => lap.duration.isNone with
    | none =>
        simp [displayLaps, hlen, hfind, currentStarts, List.filterMap_append,
          List.enum, currentData_completed, LapEntry.currentData]
    | some cl =>
        simp [displayLaps, hlen, hfind, currentStarts, List.filterMap_append,
          List.enum, currentData_completed, LapEntry.currentData]

/-- C3 witness at a concrete input: one closed lap of 10 s followed by an
open lap. -/
theorem displayLaps_completed_current_witness :
    completedRendered
        (displayLaps [⟨0, some 10, some 10⟩, ⟨20, none, none⟩] false 25)
      = ([⟨0, some 10, some 10⟩, ⟨20, none, none⟩].filter fun l : FLap =>
            l.duration.isSome && decide (0 < l.duration.getD 0)).map
          (fun l => (l.start_time, l.end_time, l.duration.getD 0))
    ∧ currentStarts
        (displayLaps [⟨0, some 10, some 10⟩, ⟨20, none, none⟩] true 25)
      = (([⟨0, some 10, some 10⟩, ⟨20, none, none⟩].find? fun l : FLap =>
            l.duration.isNone).map FLap.start_time).toList :=
  displayLaps_completed_current [⟨0, some 10, some 10⟩, ⟨20, none, none⟩]
    false 25 (by simp)

/-- C2: when the session is active and the lap list has an open lap (absent
`duration`), the rendered content carries the Stop button exactly when
`now - start_time >= 3` seconds, and otherwise the wait text showing
`3 - (now - start_time)` seconds (the unclamped `Math.ceil(3 - elapsed)`). -/
theorem displayLaps_stop_button (laps : List FLap) (now : Int) (cl : FLap)
    (h : (laps.find? fun lap => lap.duration.isNone) = some cl) :
    (currentControl (displayLaps laps true now) = some StopControl.stopButton
        ↔ 3 ≤ now - cl.start_time)
    ∧ (now - cl.start_time < 3 →
        currentControl (displayLaps laps true now)
          = some (StopControl.waitText (3 - (now - cl.start_time)))) := by
  have hne : laps ≠ [] := by
    intro e
    subst e
    simp at h
  have hlen : ¬ laps.length = 0 := by simpa [List.length_eq_zero] using hne
  have hcc : currentControl (displayLaps laps true now)
      = some (if 3 ≤ now - cl.start_time then StopControl.stopButton
              else StopControl.waitText (3 - (now - cl.start_time))) := by
    simp [displayLaps, hlen, h, currentControl, List.filterMap_append,
      List.enum, controlData_completed, LapEntry.controlData]
  rw [hcc]
  by_cases hd : 3 ≤ now - cl.start_time
  · simp [hd]
  · constructor
    · simp [hd]
    · intro _
      simp [hd]

/-- C2 witness at a concrete input: an open lap started at 100, read at 104
(elapsed 4 s, Stop shown) — hypotheses discharged by evaluation. -/
theorem displayLaps_stop_button_witness :
    (currentControl (displayLaps [⟨100, none, none⟩] true 104)
        = some StopControl.stopButton ↔ 3 ≤ (104 : Int) - 100)
    ∧ ((104 : Int) - 100 < 3 →
        currentControl (displayLaps [⟨100, none, none⟩] true 104)
          = some (StopControl.waitText (3 - ((104 : Int) - 100)))) :=
  displayLaps_stop_button [⟨100, none, none⟩] 104 ⟨100, none, none⟩ rfl

/-- C10: with `isActive = false`, `displayLaps` renders no current-lap row at
all, and a non-empty list holding only an open lap renders an empty list of
lap items. -/
theorem displayLaps_inactive_no_open (laps : List FLap) (l : FLap) (now : Int)
    (h : l.duration = none) :
    currentStarts (displayLaps laps false now) = []
    ∧ displayLaps [l] false now = LapsListContent.entries [] := by
  constructor
  · by_cases hlen : laps.length = 0
    · simp [displayLaps, hlen, currentStarts]
    · cases hfind : laps.find? fun lap => lap.duration.isNone with
      | none =>
          simp [displayLaps, hlen, hfind, currentStarts, List.filterMap_append,
            List.enum, currentData_completed, LapEntry.currentData]
      | some cl =>
          simp [displayLaps, hlen, hfind, currentStarts, List.filterMap_append,
            List.enum, currentData_completed, LapEntry.currentData]
  · simp [displayLaps, List.filter, List.find?, h]

/-- C10 witness at a concrete input: a singleton open lap, rendered inactive.
-/
theorem displayLaps_inactive_no_open_witness :
    currentStarts (displayLaps [⟨5, none, none⟩] false 9) = []
    ∧ displayLaps [⟨5, none, none⟩] false 9 = LapsListContent.entries [] :=
  displayLaps_inactive_no_open [⟨5, none, none⟩] ⟨5, none, none⟩ 9 rfl

/-- C4: a null `get_current_status` result completes the load without error,
sets `isTracking` to false and hides the laps section (never loading laps); a
status object sets `isTracking` to its `is_active` field and loads the
current day's laps. -/
theorem loadCurrentStatus_null_and_status (s : FrontendState)
    (st : CurrentStatus) :
    (loadCurrentStatus (.ok none) s).1.isTracking = false
    ∧ Action.hideLaps ∈ (loadCurrentStatus (.ok none) s).2
    ∧ Action.loadLaps ∉ (loadCurrentStatus (.ok none) s).2
    ∧ (loadCurrentStatus (.ok (some st)) s).1.isTracking = st.is_active
    ∧ Action.loadLaps ∈ (loadCurrentStatus (.ok (some st)) s).2 := by
  refine ⟨rfl, ?_, ?_, rfl, ?_⟩ <;> simp [loadCurrentStatus]

/-- C5: Start Day is disabled exactly when a session exists (`isTracking`, or
a present status with `is_active = false`), and End Day and Add Lap are
enabled in exactly those same states. -/
theorem updateButtonStates_session_gate (cs : Option CurrentStatus)
    (tr : Bool) :
    ((updateButtonStates cs tr).startDisabled = true ↔
      (tr = true ∨ ∃ st, cs = some st ∧ st.is_active = false))
    ∧ (updateButtonStates cs tr).endDisabled
        = !(updateButtonStates cs tr).startDisabled
    ∧ (updateButtonStates cs tr).addLapDisabled
        = !(updateButtonStates cs tr).startDisabled := by
  cases cs with
  | none => cases tr <;> simp [updateButtonStates]
  | some st =>
      cases tr <;> cases hst : st.is_active <;>
        simp [updateButtonStates, hst]

/-- C6: a successful `end_day` invoke sets `isTracking` to false, updates the
button states, hides the laps section, and shows a success notification whose
text contains `formatTime` of the returned record's `total_duration`. -/
theorem endDay_success (r : DayRecord) (s : FrontendState) :
    (endDay (.ok r) s).1.isTracking = false
    ∧ Action.updateButtons ∈ (endDay (.ok r) s).2
    ∧ Action.hideLaps ∈ (endDay (.ok r) s).2
    ∧ ∃ pre suf,
        Action.notify (pre ++ formatTime r.total_duration ++ suf)
          NotifKind.success ∈ (endDay (.ok r) s).2 := by
  refine ⟨rfl, ?_, ?_, "Day ended! Total time: ", "", ?_⟩ <;>
    simp [endDay]

/-- C7: the current-lap timer reads `formatTime current_lap_duration` exactly
in the active case; a present paused status shows a static current timer and
`formatTime total_session_duration` as the total; no status shows both timers
static. -/
theorem updateTimerDisplay_cases (d : String) (c t : Nat) :
    (updateTimerDisplay (some ⟨d, c, t, true⟩)).currentTimer = formatTime c
    ∧ (updateTimerDisplay (some ⟨d, c, t, true⟩)).totalTimer = formatTime t
    ∧ (updateTimerDisplay (some ⟨d, c, t, false⟩)).currentTimer = "00:00:00"
    ∧ (updateTimerDisplay (some ⟨d, c, t, false⟩)).totalTimer = formatTime t
    ∧ (updateTimerDisplay none).currentTimer = "00:00:00"
    ∧ (updateTimerDisplay none).totalTimer = "00:00:00" :=
  ⟨rfl, rfl, rfl, rfl, rfl, rfl⟩

/-- C8: on a rejected invoke every command wrapper leaves the frontend state
unchanged and its only effect is an error notification. -/
theorem wrappers_error_no_mutation (e : String) (s : FrontendState) :
    (startDay (.error e) s).1 = s
    ∧ (endDay (.error e) s).1 = s
    ∧ (addLap (.error e) s).1 = s
    ∧ (stopLap (.error e) s).1 = s
    ∧ (∃ m, (startDay (.error e) s).2 = [Action.notify m NotifKind.error])
    ∧ (∃ m, (endDay (.error e) s).2 = [Action.notify m NotifKind.error])
    ∧ (∃ m, (addLap (.error e) s).2 = [Action.notify m NotifKind.error])
    ∧ (∃ m, (stopLap (.error e) s).2 = [Action.notify m NotifKind.error]) :=
  ⟨rfl, rfl, rfl, rfl, ⟨_, rfl⟩, ⟨_, rfl⟩, ⟨_, rfl⟩, ⟨_, rfl⟩⟩

example : run [.startDayEv 0, .pauseEv 1] = .day [] := by decide

example : run [.startDayEv 0, .pauseEv 10, .resumeEv 20] =
    .day [.closedLap 0 10 10, .openLap 20] := by decide

example : run [.startDayEv 0, .pauseEv 10, .resumeEv 20, .endDayEv 30] =
    .notStarted := by decide

/-- A list with no lap satisfying `any isOpen` consists of closed laps. -/
theorem closed_of_any_eq_false {laps : List SLap}
    (h : laps.any SLap.isOpen = false) : ∀ l ∈ laps, l.isOpen = false := by
  intro l hl
  by_contra hcon
  have ht : laps.any SLap.isOpen = true :=
    List.any_eq_true.2 ⟨l, hl, by simpa using hcon⟩
  rw [ht] at h
  cases h

/-- A list of closed laps has `any isOpen = false`. -/
theorem any_eq_false_of_closed {laps : List SLap}
    (h : ∀ l ∈ laps, l.isOpen = false) : laps.any SLap.isOpen = false := by
  cases hv : laps.any SLap.isOpen with
  | false => rfl
  | true =>
      obtain ⟨l, hl, hop⟩ := List.any_eq_true.1 hv
      rw [h l hl] at hop
      cases hop

/-- When all laps except the last are closed and some lap is open, the list
splits as closed laps followed by one trailing open lap. -/
theorem open_is_trailing {laps : List SLap}
    (hInv : ∀ l ∈ laps.dropLast, l.isOpen = false)
    (hany : laps.any SLap.isOpen = true) :
    ∃ cs s, laps = cs ++ [SLap.openLap s] ∧ ∀ l ∈ cs, l.isOpen = false := by
  obtain ⟨l, hl, hop⟩ := List.any_eq_true.1 hany
  rcases List.eq_nil_or_concat laps with hnil | ⟨cs, b, hsplit⟩
  · subst hnil
    cases hl
  · rw [List.concat_eq_append] at hsplit
    subst hsplit
    have hcs : ∀ x ∈ cs, SLap.isOpen x = false := by
      intro x hx
      apply hInv
      simpa using hx
    cases b with
    | openLap s => exact ⟨cs, s, rfl, hcs⟩
    | closedLap a bb c =>
        exfalso
        rcases List.mem_append.1 hl with h1 | h2
        · rw [hcs l h1] at hop
          cases hop
        · have hlb : l = SLap.closedLap a bb c := by simpa using h2
          rw [hlb] at hop
          simp [SLap.isOpen] at hop

/-- Closing the trailing open lap of a closed-prefix list keeps or drops the
lap. -/
theorem close_lap_trailing (now s : Int) (cs : List SLap)
    (hcs : ∀ l ∈ cs, l.isOpen = false) :
    close_lap now (cs ++ [SLap.openLap s]) =
      some (cs ++ (if (now - s).toNat < MINIMUM_LAP_SECONDS then []
        else [SLap.closedLap s now (now - s).toNat])) := by
  induction cs with
  | nil => simp [close_lap]
  | cons x xs ih =>
      cases x with
      | openLap t =>
          have hx := hcs (SLap.openLap t) (by simp)
          simp [SLap.isOpen] at hx
      | closedLap a b c =>
          have hxs : ∀ l ∈ xs, l.isOpen = false := fun l hl =>
            hcs l (by simp [hl])
          simp [close_lap, ih hxs]

/-- The session-level invariant: every lap other than the last is closed. -/
def DropLastClosed (st : SessionState) : Prop :=
  ∀ l ∈ (SessionState.lapsOf st).dropLast, l.isOpen = false

/-- A day whose laps are all closed satisfies the invariant. -/
theorem dropLastClosed_day_of_all {laps : List SLap}
    (h : ∀ l ∈ laps, SLap.isOpen l = false) :
    DropLastClosed (.day laps) := by
  intro l hl
  exact h l (List.dropLast_subset _ hl)

/-- Every element left by `close_lap_trailing` is closed. -/
theorem closed_of_mem_close_result {cs : List SLap} (now s : Int)
    (hcs : ∀ l ∈ cs, l.isOpen = false) :
    ∀ l ∈ cs ++ (if (now - s).toNat < MINIMUM_LAP_SECONDS then []
      else [SLap.closedLap s now (now - s).toNat]), l.isOpen = false := by
  intro l hl
  rcases List.mem_append.1 hl with h1 | h2
  · exact hcs l h1
  · split at h2
    · cases h2
    · have hlb : l = SLap.closedLap s now (now - s).toNat := by simpa using h2
      rw [hlb]
      rfl

/-- All-but-last closed bounds the number of open laps by one. -/
theorem openCount_le_one {laps : List SLap}
    (h : ∀ l ∈ laps.dropLast, l.isOpen = false) :
    (laps.filter SLap.isOpen).length ≤ 1 := by
  rcases List.eq_nil_or_concat laps with hnil | ⟨cs, b, hsplit⟩
  · subst hnil
    simp
  · rw [List.concat_eq_append] at hsplit
    subst hsplit
    have hcs : ∀ x ∈ cs, SLap.isOpen x = false := by
      intro x hx
      apply h
      simpa using hx
    rw [List.filter_append]
    have hnil : cs.filter SLap.isOpen = [] := by
      rw [List.filter_eq_nil_iff]
      intro a ha
      simp [hcs a ha]
    rw [hnil]
    cases hb : SLap.isOpen b <;> simp [hb]

/-- One transition preserves the invariant. -/
theorem step_preserves (st : SessionState) (e : Event)
    (h : DropLastClosed st) : DropLastClosed (step st e) := by
  cases st with
  | notStarted =>
      cases e <;> simp [DropLastClosed, step, SessionState.lapsOf]
  | day laps =>
      have hlaps : ∀ l ∈ laps.dropLast, SLap.isOpen l = false := h
      cases e with
      | startDayEv now => exact h
      | endDayEv now => simp [DropLastClosed, step, SessionState.lapsOf]
      | pauseEv now =>
          cases hany : laps.any SLap.isOpen with
          | false => simpa [DropLastClosed, step, hany] using h
          | true =>
              obtain ⟨cs, s, rfl, hcs⟩ := open_is_trailing hlaps hany
              simp only [step, hany, if_true,
                close_lap_trailing now s cs hcs, Option.map_some',
                Option.getD_some]
              exact dropLastClosed_day_of_all
                (closed_of_mem_close_result now s hcs)
      | resumeEv now =>
          cases hany : laps.any SLap.isOpen with
          | true => simpa [DropLastClosed, step, hany] using h
          | false =>
              have hall := closed_of_any_eq_false hany
              simp only [step, hany, Bool.false_eq_true, if_false, open_lap,
                Option.map_some', Option.getD_some]
              intro l hl
              simp only [SessionState.lapsOf] at hl
              have hdl : (laps ++ [SLap.openLap now]).dropLast = laps := by
                simp
              rw [hdl] at hl
              exact hall l hl
      | addLapEv now =>
          cases hany : laps.any SLap.isOpen with
          | false =>
              have hall := closed_of_any_eq_false hany
              simp only [step, hany, Bool.false_eq_true, if_false, open_lap,
                Option.map_some', Option.getD_some]
              intro l hl
              simp only [SessionState.lapsOf] at hl
              have hdl : (laps ++ [SLap.openLap now]).dropLast = laps := by
                simp
              rw [hdl] at hl
              exact hall l hl
          | true =>
              obtain ⟨cs, s, rfl, hcs⟩ := open_is_trailing hlaps hany
              have hclosed := closed_of_mem_close_result now s hcs
              have hany2 := any_eq_false_of_closed hclosed
              simp only [step, hany, if_true,
                close_lap_trailing now s cs hcs, open_lap, hany2,
                Bool.false_eq_true, if_false, Option.map_some',
                Option.getD_some]
              intro l hl
              simp only [SessionState.lapsOf] at hl
              rw [List.dropLast_concat] at hl
              exact hclosed l hl

/-- The invariant holds along every run of the machine. -/
theorem run_dropLastClosed (evs : List Event) : DropLastClosed (run evs) := by
  have key : ∀ (es : List Event) (st : SessionState), DropLastClosed st →
      DropLastClosed (es.foldl step st) := by
    intro es
    induction es with
    | nil => intro st h; exact h
    | cons e rest ih =>
        intro st h
        exact ih (step st e) (step_preserves st e h)
  exact key evs SessionState.notStarted (by intro l hl; cases hl)

/-- C1: along every sequence of transitions from the fresh state, at most one
lap in the laps sequence has an absent `end_time`, and whenever an open lap
exists it is the last element of the sequence. -/
theorem lap_invariant_all_runs (evs : List Event) :
    ((SessionState.lapsOf (run evs)).filter SLap.isOpen).length ≤ 1
    ∧ ∀ l ∈ SessionState.lapsOf (run evs), l.isOpen = true →
        (SessionState.lapsOf (run evs)).getLast? = some l := by
  have h := run_dropLastClosed evs
  refine ⟨openCount_le_one h, ?_⟩
  intro l hl hop
  rcases List.eq_nil_or_concat (SessionState.lapsOf (run evs))
    with hnil | ⟨cs, b, hsplit⟩
  case inl =>
    rw [hnil] at hl
    cases hl
  case inr =>
    rw [List.concat_eq_append] at hsplit
    have hcs : ∀ x ∈ cs, SLap.isOpen x = false := by
      intro x hx
      apply h
      rw [hsplit]
      simpa using hx
    rw [hsplit] at hl
    rw [hsplit]
    rcases List.mem_append.1 hl with h1 | h2
    · rw [hcs l h1] at hop
      cases hop
    · have hlb : l = b := by simpa using h2
      rw [hlb, List.getLast?_concat]


/-- C9: for every nonnegative number of seconds `s`, `formatTime s` is the
colon-separated rendering of three zero-padded fields `H`, `M`, `S` with
`H * 3600 + M * 60 + S = s`, `M < 60` and `S < 60`: the decomposition is exact
and round-trips back to `s`. -/
theorem formatTime_decomposition (s : Nat) :
    ∃ H M S : Nat,
      formatTime s =
        padStart2 (toString H) ++ ":" ++ padStart2 (toString M) ++ ":" ++
          padStart2 (toString S) ∧
      H * 3600 + M * 60 + S = s ∧ M < 60 ∧ S < 60 := by
  refine ⟨s / 3600, (s % 3600) / 60, s % 60, rfl, ?_, ?_, ?_⟩
  · omega
  · omega
  · omega

end ScreenTime
